import Mathlib

/-!
Verification of the pywhy causal-debugging engine against its specification.

This file gives a shallow embedding of the core of the `pywhy` repository:
the event schema (`pywhy/events.py`), the event recorder (`pywhy/tracer.py`),
the AST instrumenter (`pywhy/instrumenter.py`) over a mini-Python statement
language covering the instrumented constructs, and the causal query engine
(`pywhy/questions.py`).  Definitions are translated from the Python source;
each definition's doc comment names the source function it embeds.
-/

namespace Pywhy

/-- Fragment of the Python value domain used by the embedded programs and
traces: integers, booleans, strings, `None`, lists, and three kinds of
opaque runtime objects that matter to the recorder's snapshot logic —
module-level functions and classes (callable, picklable by reference) and
lock-like objects (not picklable).  Python values outside this fragment are
not modelled. -/
inductive Value where
  | int (i : Int)
  | bool (b : Bool)
  | str (s : String)
  | noneV
  | list (elems : List Value)
  | fn (name : String)
  | cls (name : String)
  | lock
deriving Repr

mutual

/-- Structural equality on values, embedding `==` as used by the query
engine on payload and snapshot values.  (Python's numeric cross-type
equalities such as `True == 1` are outside the modelled fragment.) -/
def beqV : Value → Value → Bool
  | .int i, .int j => i == j
  | .bool a, .bool b => a == b
  | .str a, .str b => a == b
  | .noneV, .noneV => true
  | .list a, .list b => beqVL a b
  | .fn a, .fn b => a == b
  | .cls a, .cls b => a == b
  | .lock, .lock => true
  | _, _ => false

/-- Pointwise list equality used by `beqV` on list values. -/
def beqVL : List Value → List Value → Bool
  | [], [] => true
  | a :: as1, b :: bs => beqV a b && beqVL as1 bs
  | _, _ => false

end

instance : BEq Value := ⟨beqV⟩

/-- Python `callable(v)` on the modelled value fragment: functions and
classes are callable, data values are not (tracer.py line 87 uses this to
filter the globals snapshot). -/
def callableV : Value → Bool
  | .fn _ => true
  | .cls _ => true
  | _ => false

mutual

/-- Whether `pickle.dumps(v)` succeeds on the modelled fragment: lock-like
objects fail, a list pickles iff its elements do, module-level functions and
classes pickle by reference (`events.py` `_sanitize_dict` tests this). -/
def picklableV : Value → Bool
  | .lock => false
  | .list es => picklableVL es
  | _ => true

/-- List version of `picklableV`. -/
def picklableVL : List Value → Bool
  | [] => true
  | v :: rest => picklableV v && picklableVL rest

end

/-- Python `type(v).__name__` on the modelled fragment, used for the
placeholder text in `_sanitize_dict`. -/
def typeNameV : Value → String
  | .int _ => "int"
  | .bool _ => "bool"
  | .str _ => "str"
  | .noneV => "NoneType"
  | .list _ => "list"
  | .fn _ => "function"
  | .cls _ => "type"
  | .lock => "lock"

/-- Event kinds, from `events.py` `class EventType(StrEnum)`.  The `return`
kind is spelled `ret` here because `return` is reserved. -/
inductive EventType where
  | assign
  | attr_assign
  | subscript_assign
  | slice_assign
  | aug_assign
  | function_entry
  | ret
  | branch
  | loop_iteration
  | while_condition
  | call
deriving DecidableEq, Repr, Fintype

/-- String value of each `EventType` member (`StrEnum` compares equal to
these strings, which is how `questions.py` tests event kinds). -/
def EventType.value : EventType → String
  | .assign => "assign"
  | .attr_assign => "attr_assign"
  | .subscript_assign => "subscript_assign"
  | .slice_assign => "slice_assign"
  | .aug_assign => "aug_assign"
  | .function_entry => "function_entry"
  | .ret => "return"
  | .branch => "branch"
  | .loop_iteration => "loop_iteration"
  | .while_condition => "while_condition"
  | .call => "call"

instance : BEq EventType := ⟨fun a b => decide (a = b)⟩

/-- The trace event record, from `events.py` `@dataclass class TraceEvent`.
`data` is the payload mapping built by `record_event` from the flattened
key/value argument pairs; the two snapshots are the sanitized variable
binding copies.  `timestamp`/`thread_id` are stamped at capture time from
the clock and current thread; the embedded interpreter stamps the fixed
value 0 for both, which is irrelevant to every claim considered here. -/
structure TraceEvent where
  event_id : Nat
  filename : String
  lineno : Nat
  event_type : EventType
  data : List (String × Value) := []
  timestamp : Nat := 0
  thread_id : Nat := 0
  locals_snapshot : List (String × Value) := []
  globals_snapshot : List (String × Value) := []
deriving Repr

/-- Whether one character list begins with another (all characters of the
first list matched in order). -/
def charsBeginWith : List Char → List Char → Bool
  | [], _ => true
  | _ :: _, [] => false
  | c :: p, d :: s => c == d && charsBeginWith p s

/-- Python `s.startswith(p)`, computed over the underlying character
lists. -/
def pyStartsWith (s p : String) : Bool :=
  charsBeginWith p.data s.data

/-- Dictionary lookup in a payload / snapshot association list
(first binding wins, like a Python dict built left to right where
`record_event` inserts each key once). -/
def lookupD (d : List (String × Value)) (k : String) : Option Value :=
  match d.find? (fun kv => kv.1 == k) with
  | some kv => some kv.2
  | none => none

/-- Sanitizer for snapshots, from `events.py` `TraceEvent._sanitize_dict`:
drop keys starting with `_whyline_`, keep picklable values, and replace an
unpicklable value by the placeholder string naming its type. -/
def sanitize_dict : List (String × Value) → List (String × Value)
  | [] => []
  | (k, v) :: rest =>
    if pyStartsWith k "_whyline_" then sanitize_dict rest
    else if picklableV v then (k, v) :: sanitize_dict rest
    else (k, Value.str ("<unpicklable: " ++ typeNameV v ++ ">")) :: sanitize_dict rest

/-- The globals filter from `tracer.py` `record_event` (lines 86-88): keep a
module-level binding only if its name does not start with `__` and its value
is not callable. -/
def globals_filter (g : List (String × Value)) : List (String × Value) :=
  g.filter (fun kv => !(pyStartsWith kv.1 "__") && !(callableV kv.2))

/-- Binary operators of the embedded expression language (the fragment of
Python operators exercised by the instrumented constructs considered). -/
inductive BinOp where
  | add
  | sub
  | mul
  | gt
  | lt
  | eq
deriving DecidableEq, Repr

/-- Pure expressions of the mini-Python fragment fed to the instrumenter:
constants, variable reads (`ast.Name` in Load context), binary operations
and list displays.  All names occurring in an expression are reads, matching
the `ast.Load` context that `VariableCollector` tests for. -/
inductive Expr where
  | const (v : Value)
  | name (x : String)
  | bin (op : BinOp) (a b : Expr)
  | listE (elems : List Expr)
deriving Repr

/-- A module-level environment: the variable bindings visible at the
emission point (`frame.f_locals`, which at module level coincides with
`frame.f_globals`).  Insertion order is preserved, like a Python dict. -/
def Env := List (String × Value)

/-- Read a name from the environment.  The embedded programs only read
defined names, so the `NameError` case is mapped to `None`. -/
def lookupEnv (env : Env) (x : String) : Value :=
  match List.find? (fun kv => kv.1 == x) env with
  | some kv => kv.2
  | none => .noneV

/-- Bind a name, replacing an existing binding in place (dict update
semantics: insertion order of first binding is kept). -/
def updateEnv (env : Env) (x : String) (v : Value) : Env :=
  match env with
  | [] => [(x, v)]
  | (k, w) :: rest => if k == x then (x, v) :: rest else (k, w) :: updateEnv rest x v

/-- Evaluation of a binary operation on the modelled fragment (integer
arithmetic and comparisons, structural equality).  Combinations outside the
fragment evaluate to `None`. -/
def evalBin : BinOp → Value → Value → Value
  | .add, .int i, .int j => .int (i + j)
  | .sub, .int i, .int j => .int (i - j)
  | .mul, .int i, .int j => .int (i * j)
  | .gt, .int i, .int j => .bool (decide (j < i))
  | .lt, .int i, .int j => .bool (decide (i < j))
  | .eq, a, b => .bool (beqV a b)
  | _, _, _ => .noneV

mutual

/-- Pure big-step evaluation of expressions. -/
def evalE (env : Env) : Expr → Value
  | .const v => v
  | .name x => lookupEnv env x
  | .bin op a b => evalBin op (evalE env a) (evalE env b)
  | .listE es => .list (evalL env es)

/-- Evaluation of a list of expressions, in order. -/
def evalL (env : Env) : List Expr → List Value
  | [] => []
  | e :: rest => evalE env e :: evalL env rest

end

/-- Python truthiness on the modelled fragment (`bool(v)`). -/
def truthy : Value → Bool
  | .bool b => b
  | .int i => !(i == 0)
  | .str s => !(s == "")
  | .noneV => false
  | .list es => !es.isEmpty
  | .fn _ => true
  | .cls _ => true
  | .lock => true

mutual

/-- Names read (Load context) in an expression, in syntactic order with
duplicates, as walked by `instrumenter.py` `VariableCollector`. -/
def varsE : Expr → List String
  | .const _ => []
  | .name x => [x]
  | .bin _ a b => varsE a ++ varsE b
  | .listE es => varsL es

/-- List version of `varsE`. -/
def varsL : List Expr → List String
  | [] => []
  | e :: rest => varsE e ++ varsL rest

end

/-- Lexicographic comparison of character lists by code point. -/
def charListLt : List Char → List Char → Bool
  | [], [] => false
  | [], _ :: _ => true
  | _ :: _, [] => false
  | c :: cs, d :: ds =>
    decide (c.toNat < d.toNat) || (c == d && charListLt cs ds)

/-- Python string `<` (lexicographic by code point), computed over the
underlying character lists. -/
def pyStrLt (a b : String) : Bool :=
  charListLt a.data b.data

/-- Insert a string into a sorted duplicate-free list, keeping it sorted and
duplicate-free. -/
def insertSorted (x : String) : List String → List String
  | [] => [x]
  | y :: rest =>
    if x == y then y :: rest
    else if pyStrLt x y then x :: y :: rest
    else y :: insertSorted x rest

/-- Sorted duplicate-free image of a list of names: Python's
`sorted(list(set(names)))`. -/
def sortedDedup (l : List String) : List String :=
  l.foldl (fun acc x => insertSorted x acc) []

/-- The result of `VariableCollector.get_read_variables`: the sorted
duplicate-free list of names read by an expression. -/
def get_read_variables (e : Expr) : List String :=
  sortedDedup (varsE e)

mutual

/-- Rendering of a value as Python source, for `ast.unparse` of constants.
String constants are rendered with double quotes. -/
def showV : Value → String
  | .int i => toString i
  | .bool b => if b then "True" else "False"
  | .str s => "\"" ++ s ++ "\""
  | .noneV => "None"
  | .list es => "[" ++ showVL es ++ "]"
  | .fn n => n
  | .cls n => n
  | .lock => "<lock>"

/-- Comma-separated rendering of list elements. -/
def showVL : List Value → String
  | [] => ""
  | [v] => showV v
  | v :: rest => showV v ++ ", " ++ showVL rest

end

/-- Rendering of an operator as source text. -/
def showOp : BinOp → String
  | .add => "+"
  | .sub => "-"
  | .mul => "*"
  | .gt => ">"
  | .lt => "<"
  | .eq => "=="

mutual

/-- Rendering of an expression as source text, standing in for
`ast.unparse(node.test)` when the instrumenter captures a condition's source
text into the `condition` payload field. -/
def unparseE : Expr → String
  | .const v => showV v
  | .name x => x
  | .bin op a b => unparseE a ++ " " ++ showOp op ++ " " ++ unparseE b
  | .listE es => "[" ++ unparseL es ++ "]"

/-- Comma-separated rendering of expression lists. -/
def unparseL : List Expr → String
  | [] => ""
  | [e] => unparseE e
  | e :: rest => unparseE e ++ ", " ++ unparseL rest

end

/-- The generated recorder call `_whyline_tracer.record_event(event_id,
filename, lineno, event_type, *flattened_pairs)` as produced by
`WhylineInstrumenter.create_tracer_call`.  The flattened alternating
key/value argument list is represented already paired, exactly as
`record_event` re-pairs it (`tracer.py` lines 69-76). -/
structure TracerCall where
  event_id : Nat
  filename : String
  lineno : Nat
  event_type : EventType
  pairs : List (String × Expr)
deriving Repr

/-- Statements of the mini-Python fragment: plain-name assignment,
plain-name augmented assignment, conditionals, `while` and `for` loops (the
instrumented constructs relevant to the claims below), plus the inserted
recorder-call expression statement `ast.Expr(ast.Call(record_event, ...))`.
Source programs handed to the instrumenter contain no `exprTracer`
statement; only instrumented output does. -/
inductive Stmt where
  | assign (target : String) (value : Expr)
  | augAssign (target : String) (op : BinOp) (value : Expr)
  | ifS (test : Expr) (body orelse : List Stmt)
  | whileS (test : Expr) (body : List Stmt)
  | forS (target : String) (iter : Expr) (body : List Stmt)
  | exprTracer (c : TracerCall)
deriving Repr

/-- The event constructed by `WhylineTracer.record_event` for one recorder
call: the payload is the evaluated key/value pairs, the locals snapshot is
the sanitized copy of the caller's bindings, and the globals snapshot is the
caller's bindings put through the `__`/callable filter and then sanitized
(at module level `f_locals` and `f_globals` are the same dict).  Recording
is modelled in the enabled state; `timestamp`/`thread_id` are stamped 0. -/
def record_event (c : TracerCall) (env : Env) : TraceEvent :=
  { event_id := c.event_id
    filename := c.filename
    lineno := c.lineno
    event_type := c.event_type
    data := c.pairs.map (fun kv => (kv.1, evalE env kv.2))
    timestamp := 0
    thread_id := 0
    locals_snapshot := sanitize_dict env
    globals_snapshot := sanitize_dict (globals_filter env) }

mutual

/-- Fuel-indexed big-step execution of one statement, returning the updated
environment and the list of trace events emitted, in emission order (the
recorder appends each event to its log under a lock, so the log after a run
is the log before plus the emitted list).  Every recursive call consumes
one unit of fuel; `none` means the fuel ran out or the program left the
modelled fragment (e.g. iterating a non-list). -/
def execStmt : Nat → Env → Stmt → Option (Env × List TraceEvent)
  | 0, _, _ => none
  | _ + 1, env, .assign x e => some (updateEnv env x (evalE env e), [])
  | _ + 1, env, .augAssign x op e =>
    some (updateEnv env x (evalBin op (lookupEnv env x) (evalE env e)), [])
  | _ + 1, env, .exprTracer c => some (env, [record_event c env])
  | fuel + 1, env, .ifS t b o =>
    if truthy (evalE env t) then execStmts fuel env b else execStmts fuel env o
  | fuel + 1, env, .whileS t b =>
    if truthy (evalE env t) then
      (execStmts fuel env b).bind (fun r1 =>
        (execStmt fuel r1.1 (.whileS t b)).map (fun r2 => (r2.1, r1.2 ++ r2.2)))
    else some (env, [])
  | fuel + 1, env, .forS x it b =>
    match evalE env it with
    | .list vs => execFor fuel env x vs b
    | _ => none

/-- Iteration of a `for` loop body over the remaining iterable elements. -/
def execFor : Nat → Env → String → List Value → List Stmt → Option (Env × List TraceEvent)
  | 0, _, _, _, _ => none
  | _ + 1, env, _, [], _ => some (env, [])
  | fuel + 1, env, x, v :: vs, b =>
    (execStmts fuel (updateEnv env x v) b).bind (fun r1 =>
      (execFor fuel r1.1 x vs b).map (fun r2 => (r2.1, r1.2 ++ r2.2)))

/-- Sequential execution of a statement list. -/
def execStmts : Nat → Env → List Stmt → Option (Env × List TraceEvent)
  | 0, _, _ => none
  | _ + 1, env, [] => some (env, [])
  | fuel + 1, env, s :: rest =>
    (execStmt fuel env s).bind (fun r1 =>
      (execStmts fuel r1.1 rest).map (fun r2 => (r2.1, r1.2 ++ r2.2)))

end

/-- Helper `WhylineInstrumenter.add_deps_to_args`: append a `deps` argument
holding the sorted read-variable names of `e` when that set is nonempty. -/
def add_deps_to_args (e : Expr) (args : List (String × Expr)) : List (String × Expr) :=
  let deps := get_read_variables e
  if deps.isEmpty then args
  else args ++ [("deps", Expr.listE (deps.map (fun v => Expr.const (.str v))))]

/-- Build the recorder call for one instrumentation point, embedding
`WhylineInstrumenter.create_tracer_call`: allocate the next event id from
the instrumenter's counter (ids are allocated at instrumentation time and
baked into the generated call as constants) and attach filename and payload
pairs.  The embedded statement nodes carry no `lineno` attribute, so the
source's `getattr(node, "lineno", 0)` yields 0 here. -/
def create_tracer_call (fname : String) (etype : EventType)
    (pairs : List (String × Expr)) (c : Nat) : Stmt × Nat :=
  (.exprTracer ⟨c + 1, fname, 0, etype, pairs⟩, c + 1)

mutual

/-- The statement transformer, embedding `WhylineInstrumenter`'s visitors
for the modelled constructs.  The second component threads the
instrumenter's `event_id` counter.  As in the Python `NodeTransformer`,
children are transformed before the node's own tracer calls are created, so
child instrumentation points receive smaller ids.  `safe_copy_for_expression`
(a deep copy with contexts rewritten to Load) is the identity on the
embedded pure expressions, whose names are all in Load context already. -/
def instrStmt (fname : String) : Stmt → Nat → List Stmt × Nat
  | .assign x e, c =>
    let args := add_deps_to_args e
      [("var_name", Expr.const (.str x)), ("value", Expr.name x)]
    let (tc, c1) := create_tracer_call fname .assign args c
    ([.assign x e, tc], c1)
  | .augAssign x op e, c =>
    let all_deps := sortedDedup ([x] ++ varsE e)
    let baseArgs : List (String × Expr) :=
      [("var_name", Expr.const (.str x)), ("value", Expr.name x)]
    let args := if all_deps.isEmpty then baseArgs
      else baseArgs ++ [("deps", Expr.listE (all_deps.map (fun v => Expr.const (.str v))))]
    let (tc, c1) := create_tracer_call fname .aug_assign args c
    ([.augAssign x op e, tc], c1)
  | .ifS t b o, c =>
    let (b1, cb) := instrStmts fname b c
    let (o1, co) := instrStmts fname o cb
    let condStr := unparseE t
    let ifArgs := add_deps_to_args t
      [("condition", Expr.const (.str condStr)), ("result", t),
       ("decision", Expr.const (.str "if_block"))]
    let (ifTracer, c1) := create_tracer_call fname .branch ifArgs co
    let body2 := ifTracer :: b1
    match o1 with
    | [] =>
      let skipArgs := add_deps_to_args t
        [("condition", Expr.const (.str condStr)), ("result", t),
         ("decision", Expr.const (.str "skip_block"))]
      let (skipTracer, c2) := create_tracer_call fname .branch skipArgs c1
      ([.ifS t body2 [skipTracer]], c2)
    | [.ifS t2 b2 o2] =>
      let elifArgs := add_deps_to_args t
        [("condition", Expr.const (.str condStr)), ("result", t),
         ("decision", Expr.const (.str "elif_block"))]
      let (elifTracer, c2) := create_tracer_call fname .branch elifArgs c1
      ([.ifS t body2 (elifTracer :: [.ifS t2 b2 o2])], c2)
    | o1nonIf =>
      let elseArgs := add_deps_to_args t
        [("condition", Expr.const (.str condStr)), ("result", t),
         ("decision", Expr.const (.str "else_block"))]
      let (elseTracer, c2) := create_tracer_call fname .branch elseArgs c1
      ([.ifS t body2 (elseTracer :: o1nonIf)], c2)
  | .whileS t b, c =>
    let (b1, cb) := instrStmts fname b c
    let args := add_deps_to_args t
      [("condition", Expr.const (.str (unparseE t))), ("result", t)]
    let (tc, c1) := create_tracer_call fname .while_condition args cb
    ([.whileS t (tc :: b1)], c1)
  | .forS x it b, c =>
    let (b1, cb) := instrStmts fname b c
    let args : List (String × Expr) :=
      [("target", Expr.const (.str x)), ("iter_value", Expr.name x)]
    let (tc, c1) := create_tracer_call fname .loop_iteration args cb
    ([.forS x it (tc :: b1)], c1)
  | .exprTracer tc, c => ([.exprTracer tc], c)

/-- Transformation of a statement list: each statement's replacement list is
spliced in place, as `NodeTransformer` does for visitors returning lists. -/
def instrStmts (fname : String) : List Stmt → Nat → List Stmt × Nat
  | [], c => ([], c)
  | s :: rest, c =>
    let (s1, c1) := instrStmt fname s c
    let (r1, c2) := instrStmts fname rest c1
    (s1 ++ r1, c2)

end

/-- Module-level instrumentation, embedding `instrument_code` on a parsed
module: transform all statements starting from the fresh counter 0
(`WhylineInstrumenter.__init__` sets `event_id = 0`; the first allocated id
is 1).  The two header statements inserted by `visit_Module` (the
`get_tracer` import and the `_whyline_tracer` binding) perform no user-visible
work and are modelled as part of the runtime: the interpreter's
`record_event` is the bound tracer, and the sanitizer drops `_whyline_`
names from snapshots regardless. -/
def instrumentProgram (fname : String) (p : List Stmt) : List Stmt :=
  (instrStmts fname p 0).1

/-- Instrument a module and run it from an empty environment with the given
fuel, returning the emitted trace (the recorder's log after the run).
Embeds the `instrument_code` + `exec` pipeline of `exec_instrumented` in the
success case. -/
def runInstrumented (fname : String) (p : List Stmt) (fuel : Nat) : List TraceEvent :=
  match execStmts fuel [] (instrumentProgram fname p) with
  | some (_, tr) => tr
  | none => []

mutual

/-- Event ids of the recorder calls embedded in a statement, recursively. -/
def tracerIds : Stmt → List Nat
  | .assign _ _ => []
  | .augAssign _ _ _ => []
  | .ifS _ b o => tracerIdsL b ++ tracerIdsL o
  | .whileS _ b => tracerIdsL b
  | .forS _ _ b => tracerIdsL b
  | .exprTracer c => [c.event_id]

/-- List version of `tracerIds`. -/
def tracerIdsL : List Stmt → List Nat
  | [] => []
  | s :: rest => tracerIds s ++ tracerIdsL rest

end

mutual

/-- A source statement, i.e. one containing no generated recorder call.
Programs handed to the instrumenter satisfy this. -/
def NoTracer : Stmt → Bool
  | .assign _ _ => true
  | .augAssign _ _ _ => true
  | .ifS _ b o => NoTracerL b && NoTracerL o
  | .whileS _ b => NoTracerL b
  | .forS _ _ b => NoTracerL b
  | .exprTracer _ => false

/-- List version of `NoTracer`. -/
def NoTracerL : List Stmt → Bool
  | [] => true
  | s :: rest => NoTracer s && NoTracerL rest

end

/-! ### The causal query engine, `pywhy/questions.py` -/

/-- Python exceptions raised by the query engine's analyses. -/
inductive PyErr where
  | attributeError (msg : String)
  | typeError (msg : String)
  | indexError (msg : String)
deriving DecidableEq, Repr

/-- Attribute access `event.args` as performed throughout
`pywhy/questions.py`.  The `TraceEvent` dataclass (`pywhy/events.py`)
declares the fields `event_id`, `filename`, `lineno`, `event_type`, `data`,
`timestamp`, `thread_id`, `locals_snapshot` and `globals_snapshot` — there
is no `args` attribute (the payload field is named `data`), so this access
raises `AttributeError` on every event. -/
def TraceEvent.attr_args (_e : TraceEvent) : Except PyErr (List Value) :=
  .error (.attributeError "TraceEvent object has no attribute args")

/-- Indexing `xs[i]` guarded by the length checks in the source. -/
def pyIndex (xs : List Value) (i : Nat) : Value :=
  xs.getD i .noneV

/-- The `ValueSourceAnswer` dataclass of `questions.py` (lines 21-31): the
`Answer` base class is a plain class (not a dataclass), so the generated
`__init__` accepts only the dataclass's own field `source_events`. -/
structure ValueSourceAnswerD where
  source_events : List TraceEvent := []
deriving Repr

/-- The constructor call `ValueSourceAnswer(question=..., explanation=...,
evidence=..., source_events=...)` as written by every `analyze` in
`questions.py`.  Because `Answer` is not a dataclass, `question`,
`explanation` and `evidence` are not `__init__` parameters, so the call
raises `TypeError` (the `question=self` argument is the first unexpected
keyword).  The intended arguments are kept as parameters to mirror the call
sites. -/
def ValueSourceAnswer.construct (_explanation : String)
    (_evidence _source_events : List TraceEvent) : Except PyErr ValueSourceAnswerD :=
  .error (.typeError "__init__ got an unexpected keyword argument question")

/-- The `ExecutionAnswer` dataclass of `questions.py` (lines 34-43); its
generated `__init__` accepts only `execution_events` and `dependencies`. -/
structure ExecutionAnswerD where
  execution_events : List TraceEvent := []
  dependencies : List TraceEvent := []
deriving Repr

/-- The constructor call `ExecutionAnswer(question=..., explanation=...,
evidence=..., execution_events=..., dependencies=...)` as written in
`questions.py`: raises `TypeError` for the same reason as
`ValueSourceAnswer.construct`. -/
def ExecutionAnswer.construct (_explanation : String)
    (_evidence _execution_events _dependencies : List TraceEvent) :
    Except PyErr ExecutionAnswerD :=
  .error (.typeError "__init__ got an unexpected keyword argument question")

/-- The event-scanning loop of `WhyDidVariableHaveValue.analyze`
(`questions.py` lines 88-119), accumulating matching assignment events.  The
guard first tests the event kind against the strings `assign`/`aug_assign`
(`StrEnum` string comparison) and then reads `event.args`, which raises
`AttributeError`; the remaining checks (length, key names, file and
line-upper-bound filters, payload value match with locals-snapshot
fallback) are embedded faithfully after that read. -/
def vhvScan (var_name : String) (value : Value) (filename : Option String)
    (line_no : Option Nat) :
    List TraceEvent → List TraceEvent → Except PyErr (List TraceEvent)
  | acc, [] => .ok acc
  | acc, e :: rest =>
    if e.event_type.value == "assign" || e.event_type.value == "aug_assign" then do
      let as1 ← e.attr_args
      if !as1.isEmpty && decide (4 ≤ as1.length)
          && beqV (pyIndex as1 0) (.str "var_name")
          && beqV (pyIndex as1 1) (.str var_name) then
        let fileSkip :=
          match filename with
          | some f => !(e.filename == f || e.filename == "<string>" || f == "<string>")
          | none => false
        let lineSkip :=
          match line_no with
          | some n => !(n == 0) && decide (n < e.lineno)
          | none => false
        if fileSkip || lineSkip then
          vhvScan var_name value filename line_no acc rest
        else
          let vm1 := decide (4 ≤ as1.length) && beqV (pyIndex as1 2) (.str "value")
            && beqV (pyIndex as1 3) value
          let vm2 :=
            match lookupD e.locals_snapshot var_name with
            | some actual => beqV actual value
            | none => false
          if vm1 || vm2 then vhvScan var_name value filename line_no (acc ++ [e]) rest
          else vhvScan var_name value filename line_no acc rest
      else vhvScan var_name value filename line_no acc rest
    else vhvScan var_name value filename line_no acc rest

/-- Embeds `WhyDidVariableHaveValue.analyze` (`questions.py` lines 85-132):
scan for matching assignments, then build the `ValueSourceAnswer` whose
explanation cites the last match (explanation text without the source's
quote characters).  Both the scan (on the first assign-kind event) and the
answer construction raise, so the analysis never returns normally. -/
def WhyDidVariableHaveValue.analyze (var_name : String) (value : Value)
    (filename : Option String) (line_no : Option Nat)
    (events : List TraceEvent) : Except PyErr ValueSourceAnswerD := do
  let assignments ← vhvScan var_name value filename line_no [] events
  let explanation :=
    match assignments.getLast? with
    | none => "No assignment found for variable " ++ var_name ++
        " with value " ++ showV value
    | some last => "Variable " ++ var_name ++ " got value " ++ showV value ++
        " from assignment at line " ++ toString last.lineno
  ValueSourceAnswer.construct explanation assignments assignments

/-- The scanning loop of `WhyWasFunctionCalled.analyze` (`questions.py`
lines 217-222): it looks for events whose kind equals the string `call_pre`.
No `EventType` member has that value (the instrumenter emits
`function_entry` for function entries), so the kind test is false for every
event; `event.args` is only read after the kind test succeeds. -/
def wfcScan (func_name : String) :
    List TraceEvent → List TraceEvent → Except PyErr (List TraceEvent)
  | acc, [] => .ok acc
  | acc, e :: rest =>
    if e.event_type.value == "call_pre" then do
      let as1 ← e.attr_args
      if !as1.isEmpty && decide (2 ≤ as1.length)
          && beqV (pyIndex as1 0) (.str "func_name")
          && beqV (pyIndex as1 1) (.str func_name) then
        wfcScan func_name (acc ++ [e]) rest
      else wfcScan func_name acc rest
    else wfcScan func_name acc rest

/-- Embeds `WhyWasFunctionCalled._find_call_dependencies` (`questions.py`
lines 252-263): branch/condition events before the call in the same file. -/
def find_call_dependencies (events : List TraceEvent) (callEvent : TraceEvent) :
    List TraceEvent :=
  events.filter (fun e =>
    decide (e.event_id < callEvent.event_id)
    && (e.event_type.value == "branch" || e.event_type.value == "condition")
    && e.filename == callEvent.filename)

/-- Embeds `WhyWasFunctionCalled.analyze` (`questions.py` lines 212-250):
collect `call_pre` events for the function (always none, since that kind is
never recorded), then construct the answer — the construction raises
`TypeError` in the never-called branch as well as in the called branch. -/
def WhyWasFunctionCalled.analyze (func_name : String)
    (events : List TraceEvent) : Except PyErr ExecutionAnswerD := do
  let call_events ← wfcScan func_name [] events
  match call_events.getLast? with
  | none =>
    ExecutionAnswer.construct
      ("Function " ++ func_name ++ " was never called") [] [] []
  | some target_call =>
    let dependencies := find_call_dependencies events target_call
    ExecutionAnswer.construct
      ("Function " ++ func_name ++ " was called " ++
        toString call_events.length ++ " times")
      (call_events ++ dependencies) call_events dependencies

/-- Memoizing question state, embedding `Question.__init__`'s
`self.answer = None` and the cached answer slot; `analyzeCalls` is a ghost
counter of how many times the analysis has run. -/
structure MemoQuestion (α : Type) where
  answer : Option α
  analyzeCalls : Nat
deriving Repr

/-- Embeds `Question.get_answer` (`questions.py` lines 60-64): compute the
answer on the first call and cache it; return the cached object unchanged on
later calls.  The subclass's `analyze` method is modelled by the value it
returns. -/
def MemoQuestion.get_answer {α : Type} (analyzeResult : α)
    (q : MemoQuestion α) : α × MemoQuestion α :=
  match q.answer with
  | none => (analyzeResult, ⟨some analyzeResult, q.analyzeCalls + 1⟩)
  | some a => (a, q)

/-- The execution-answer shape of the specification (section 3): an
explanation, an ordered evidence list, and the execution/non-execution
events plus causal dependency events that specialize it. -/
structure ExecutionAnswerS where
  explanation : String
  evidence : List TraceEvent
  execution_events : List TraceEvent
  dependencies : List TraceEvent
deriving Repr

/-- Modelled from the spec: the analysis behind `why_didnt_line_execute`.
The classes `WhyDidLineExecute` / `WhyDidntLineExecute` and the factory
methods `why_did_line_execute` / `why_didnt_line_execute` are absent from
`src/pywhy/questions.py`; only their callers exist under `src/` (`cli.py`
lines 207/223, `ui.py` lines 206/215, `textual_ui.py` lines 870-872, and
`tests/test_question_system.py`).  Spec section 4.3, line-executed /
line-not-executed: collect all events whose (file, line) match; if any
exist, the answer states the execution count with every `branch` event of
strictly smaller id in the same file as dependencies; if none exist for
"why didn't", the answer states zero executions and offers the `branch`
events occurring at smaller line numbers in the same file as candidate
blocking decisions. -/
def WhyDidntLineExecute.analyze (filename : String) (lineno : Nat)
    (events : List TraceEvent) : ExecutionAnswerS :=
  let line_events := events.filter (fun e =>
    e.filename == filename && e.lineno == lineno)
  if line_events.isEmpty then
    let blocking := events.filter (fun e =>
      e.event_type == EventType.branch && e.filename == filename
      && decide (e.lineno < lineno))
    { explanation := "Line " ++ toString lineno ++
        " was executed 0 times; it never executed"
      evidence := blocking
      execution_events := []
      dependencies := blocking }
  else
    let deps :=
      match line_events.getLast? with
      | some le => events.filter (fun e =>
          e.event_type == EventType.branch && e.filename == filename
          && decide (e.event_id < le.event_id))
      | none => []
    { explanation := "Line " ++ toString lineno ++ " was executed " ++
        toString line_events.length ++ " times"
      evidence := line_events ++ deps
      execution_events := line_events
      dependencies := deps }

/-- Modelled from the spec: the Question object returned by the factory
constructor `why_didnt_line_execute` (absent from `src/`), with the cached
answer slot fresh as in `Question.__init__`. -/
def why_didnt_line_execute (filename : String) (lineno : Nat) :
    MemoQuestion ExecutionAnswerS × (List TraceEvent → ExecutionAnswerS) :=
  (⟨none, 0⟩, WhyDidntLineExecute.analyze filename lineno)

/-! ### Core entry points and failure semantics, `pywhy/instrumenter.py` -/

/-- Errors of the instrumentation pipeline: `instrument_code` raises
`ValueError("Syntax error in source code: ...")` on a parse failure and the
distinct `ValueError("Failed to unparse instrumented AST: ...")` when the
rewritten tree cannot be re-serialized. -/
inductive InstrumentError where
  | syntaxError (msg : String)
  | unparseError (msg : String)
deriving DecidableEq, Repr

mutual

/-- Rendering of one statement as source text, standing in for
`ast.unparse` on the statement fragment (indentation prefix threaded). -/
def renderStmt (ind : String) : Stmt → String
  | .assign x e => ind ++ x ++ " = " ++ unparseE e
  | .augAssign x op e => ind ++ x ++ " " ++ showOp op ++ "= " ++ unparseE e
  | .ifS t b o =>
    ind ++ "if " ++ unparseE t ++ ":\n" ++ renderStmts (ind ++ "    ") b ++
      (if o.isEmpty then "" else "\n" ++ ind ++ "else:\n" ++ renderStmts (ind ++ "    ") o)
  | .whileS t b => ind ++ "while " ++ unparseE t ++ ":\n" ++ renderStmts (ind ++ "    ") b
  | .forS x it b =>
    ind ++ "for " ++ x ++ " in " ++ unparseE it ++ ":\n" ++ renderStmts (ind ++ "    ") b
  | .exprTracer c =>
    ind ++ "_whyline_tracer.record_event(" ++ toString c.event_id ++ ", \"" ++
      c.filename ++ "\", " ++ toString c.lineno ++ ", \"" ++
      c.event_type.value ++ "\", ...)"

/-- Newline-joined rendering of a statement list. -/
def renderStmts (ind : String) : List Stmt → String
  | [] => ind ++ "pass"
  | [s] => renderStmt ind s
  | s :: rest => renderStmt ind s ++ "\n" ++ renderStmts ind rest

end

/-- A Python source file as the core entry points see it: the raw text plus
the outcome of `ast.parse` on that text (`none` when the text does not
parse).  The Python parser itself is not modelled; a `PyFile` carries its
verdict. -/
structure PyFile where
  text : String
  parsed : Option (List Stmt)

/-- Embeds `instrument_code` (`instrumenter.py` lines 605-625): a parse
failure raises `ValueError` (mapped to `syntaxError`); otherwise the tree is
transformed and unparsed back to source text.  Unparsing is total in the
model, so the distinct `unparseError` branch (lines 622-625) is never
produced here. -/
def instrument_code (f : PyFile) : Except InstrumentError String :=
  match f.parsed with
  | none => .error (.syntaxError "Syntax error in source code")
  | some p => .ok (renderStmts "" (instrumentProgram "<string>" p))

/-- Embeds `instrument_file` (`instrumenter.py` lines 667-688) minus the
file IO: instrument the file's contents; on ANY exception, print a message
and return the ORIGINAL source text.  The `Except` result type makes the
absence of error propagation explicit: every branch returns `.ok`. -/
def instrument_file (f : PyFile) : Except InstrumentError String :=
  match instrument_code f with
  | .ok instrumented => .ok instrumented
  | .error _ => .ok f.text

/-- Embeds `exec_instrumented` (`instrumenter.py` lines 627-665): try to
instrument and execute; on any exception print a message and fall back to
executing the ORIGINAL, uninstrumented code.  The instrumentation error
itself is swallowed (lines 660-663); when the original text does not parse
either, the fallback `exec` raises its own syntax error, which is the
`.error` produced below — it comes from the fallback execution, not from
instrumentation.  `none` inside `.ok` means the modelled execution ran out
of fuel. -/
def exec_instrumented (f : PyFile) (fuel : Nat) :
    Except InstrumentError (Option (Env × List TraceEvent)) :=
  match f.parsed with
  | some p => .ok (execStmts fuel [] (instrumentProgram "<string>" p))
  | none => .error (.syntaxError "fallback exec: original source does not parse")

/-! ### Trace persistence, `pywhy/tracer.py` `save_trace` / `load_trace` -/

/-- Tokens of the serialized trace blob.  `save_trace` persists the event
list with `pickle.dump` and `load_trace` restores it with `pickle.load`;
the opaque binary pickle stream is modelled as a flat token list.  Only
picklable values have a token form: lock-like objects have none, and
serializing them fails, exactly as `pickle.dump` raises `TypeError` on
them.  A recorded event's `data` payload is NOT sanitized (only the two
snapshots are, in `TraceEvent.__post_init__`), so a log whose payload
holds such a value cannot be persisted at all. -/
inductive Tok where
  | tInt (i : Int)
  | tBool (b : Bool)
  | tStr (s : String)
  | tNone
  | tList (n : Nat)
  | tFn (s : String)
  | tCls (s : String)
  | tNat (n : Nat)
  | tKind (k : EventType)
deriving DecidableEq, Repr

mutual

/-- Serialization of one value to the token stream, modelling
`pickle.dumps` on that value: raises `TypeError` on a lock-like object
(`picklableV` is false for exactly these), succeeds on everything else in
the modelled fragment. -/
def encV : Value → Except PyErr (List Tok)
  | .int i => .ok [.tInt i]
  | .bool b => .ok [.tBool b]
  | .str s => .ok [.tStr s]
  | .noneV => .ok [.tNone]
  | .list es =>
    match encVs es with
    | .ok ts => .ok (.tList es.length :: ts)
    | .error e => .error e
  | .fn s => .ok [.tFn s]
  | .cls s => .ok [.tCls s]
  | .lock => .error (.typeError "cannot pickle _thread.lock object")

/-- Serialization of a list of values, in order; the first unpicklable
element aborts the whole dump. -/
def encVs : List Value → Except PyErr (List Tok)
  | [] => .ok []
  | v :: rest =>
    match encV v with
    | .ok a =>
      match encVs rest with
      | .ok b => .ok (a ++ b)
      | .error e => .error e
    | .error e => .error e

end

mutual

/-- Fuel-indexed deserialization of one value from the token stream,
returning the value and the remaining tokens. -/
def decV : Nat → List Tok → Option (Value × List Tok)
  | 0, _ => none
  | _ + 1, .tInt i :: r => some (.int i, r)
  | _ + 1, .tBool b :: r => some (.bool b, r)
  | _ + 1, .tStr s :: r => some (.str s, r)
  | _ + 1, .tNone :: r => some (.noneV, r)
  | fuel + 1, .tList n :: r =>
    match decVs fuel n r with
    | some (vs, r2) => some (.list vs, r2)
    | none => none
  | _ + 1, .tFn s :: r => some (.fn s, r)
  | _ + 1, .tCls s :: r => some (.cls s, r)
  | _ + 1, _ => none

/-- Deserialization of exactly `n` values. -/
def decVs : Nat → Nat → List Tok → Option (List Value × List Tok)
  | 0, _, _ => none
  | _ + 1, 0, r => some ([], r)
  | fuel + 1, n + 1, r =>
    match decV fuel r with
    | some (v, r2) =>
      match decVs fuel n r2 with
      | some (vs, r3) => some (v :: vs, r3)
      | none => none
    | none => none

end

mutual

/-- Serialization size bound used as decoder fuel for one value. -/
def sizeV : Value → Nat
  | .list es => 1 + sizeVs es
  | _ => 1

/-- Serialization size bound for a value list. -/
def sizeVs : List Value → Nat
  | [] => 1
  | v :: rest => 1 + sizeV v + sizeVs rest

end

/-- Serialization of one payload/snapshot dictionary entry; fails iff the
value is unpicklable. -/
def encPair (kv : String × Value) : Except PyErr (List Tok) :=
  match encV kv.2 with
  | .ok ts => .ok (.tStr kv.1 :: ts)
  | .error e => .error e

/-- Serialization of a dictionary's entries in order. -/
def encPairs : List (String × Value) → Except PyErr (List Tok)
  | [] => .ok []
  | kv :: rest =>
    match encPair kv with
    | .ok a =>
      match encPairs rest with
      | .ok b => .ok (a ++ b)
      | .error e => .error e
    | .error e => .error e

/-- Serialization of a payload or snapshot dictionary (length-prefixed). -/
def encD (d : List (String × Value)) : Except PyErr (List Tok) :=
  match encPairs d with
  | .ok ts => .ok (.tList d.length :: ts)
  | .error e => .error e

/-- Deserialization of exactly `n` dictionary entries. -/
def decPairs : Nat → Nat → List Tok → Option (List (String × Value) × List Tok)
  | 0, _, _ => none
  | _ + 1, 0, r => some ([], r)
  | fuel + 1, n + 1, .tStr k :: r =>
    match decV fuel r with
    | some (v, r2) =>
      match decPairs fuel n r2 with
      | some (d, r3) => some ((k, v) :: d, r3)
      | none => none
    | none => none
  | _ + 1, _ + 1, _ => none

/-- Deserialization of a dictionary. -/
def decD (fuel : Nat) : List Tok → Option (List (String × Value) × List Tok)
  | .tList n :: r => decPairs fuel n r
  | _ => none

/-- Size bound for a dictionary's serialization, used as decoder fuel. -/
def sizeD (d : List (String × Value)) : Nat :=
  match d with
  | [] => 1
  | kv :: rest => 1 + sizeV kv.2 + sizeD rest

/-- Serialization of one trace event: envelope fields in order, then the
payload and the two snapshots; fails iff any contained value is
unpicklable (the payload is the only dictionary that can still hold one,
since the snapshots were sanitized at capture time). -/
def encE (e : TraceEvent) : Except PyErr (List Tok) :=
  match encD e.data with
  | .ok d1 =>
    match encD e.locals_snapshot with
    | .ok d2 =>
      match encD e.globals_snapshot with
      | .ok d3 =>
        .ok ([.tNat e.event_id, .tStr e.filename, .tNat e.lineno,
              .tKind e.event_type] ++ d1 ++
             [.tNat e.timestamp, .tNat e.thread_id] ++ d2 ++ d3)
      | .error err => .error err
    | .error err => .error err
  | .error err => .error err

/-- Deserialization of one trace event. -/
def decE (fuel : Nat) (toks : List Tok) : Option (TraceEvent × List Tok) :=
  match toks with
  | .tNat event_id :: .tStr filename :: .tNat lineno :: .tKind event_type :: r =>
    match decD fuel r with
    | some (data, r2) =>
      match r2 with
      | .tNat timestamp :: .tNat thread_id :: r3 =>
        match decD fuel r3 with
        | some (locals_snapshot, r4) =>
          match decD fuel r4 with
          | some (globals_snapshot, r5) =>
            some ({ event_id, filename, lineno, event_type, data, timestamp,
                    thread_id, locals_snapshot, globals_snapshot }, r5)
          | none => none
        | none => none
      | _ => none
    | none => none
  | _ => none

/-- Fuel bound for one event's deserialization. -/
def sizeE (e : TraceEvent) : Nat :=
  sizeD e.data + sizeD e.locals_snapshot + sizeD e.globals_snapshot

/-- Serialization of the event list in log order; the first unpicklable
value aborts the whole dump, as one `pickle.dump` call on the list does. -/
def encEvents : List TraceEvent → Except PyErr (List Tok)
  | [] => .ok []
  | e :: rest =>
    match encE e with
    | .ok a =>
      match encEvents rest with
      | .ok b => .ok (a ++ b)
      | .error err => .error err
    | .error err => .error err

/-- Deserialization of exactly `n` events. -/
def decEvents (fuel : Nat) : Nat → List Tok → Option (List TraceEvent × List Tok)
  | 0, r => some ([], r)
  | n + 1, r =>
    match decE fuel r with
    | some (e, r2) =>
      match decEvents fuel n r2 with
      | some (evs, r3) => some (e :: evs, r3)
      | none => none
    | none => none

/-- Decoder fuel recorded in the blob header: dominates the nesting budget
of every event in the log. -/
def traceFuel (events : List TraceEvent) : Nat :=
  (events.map sizeE).sum + 1

/-- Embeds `WhylineTracer.save_trace` (`tracer.py` lines 127-130) minus the
file IO: serialize the whole ordered event list to one opaque blob, as
`pickle.dump(self.events, f)` does, raising `TypeError` when any event
holds an unpicklable value (the spec mandates no wire schema beyond an
exact round-trip; this format stores a decoder-fuel header, the event
count, and the events in log order). -/
def save_trace (events : List TraceEvent) : Except PyErr (List Tok) :=
  match encEvents events with
  | .ok ts => .ok (.tNat (traceFuel events) :: .tList events.length :: ts)
  | .error err => .error err

/-- Embeds `WhylineTracer.load_trace` (`tracer.py` lines 132-135) minus the
file IO: restore the event list from the blob, as `pickle.load(f)` does;
`none` models an unreadable blob. -/
def load_trace (blob : List Tok) : Option (List TraceEvent) :=
  match blob with
  | .tNat fuel :: .tList n :: r =>
    match decEvents fuel n r with
    | some (evs, []) => some evs
    | _ => none
  | _ => none

/-! ### Concrete fixture programs and traces -/

/-- The spec's concrete scenario program: `x = 10`, `y = 20`, `z = x + y`. -/
def prog_xyz : List Stmt :=
  [.assign "x" (.const (.int 10)),
   .assign "y" (.const (.int 20)),
   .assign "z" (.bin .add (.name "x") (.name "y"))]

/-- A two-iteration loop whose body contains one assignment:
`for i in [1, 2]: x = i`.  Both of its instrumentation points fire twice. -/
def prog_loop : List Stmt :=
  [.forS "i" (.const (.list [.int 1, .int 2])) [.assign "x" (.name "i")]]

/-- A recorded `assign` event as the instrumented pipeline produces it, used
as a fixture trace element for the query-engine claims. -/
def assignEvent_x10 : TraceEvent :=
  { event_id := 1, filename := "<string>", lineno := 1, event_type := .assign
    data := [("var_name", .str "x"), ("value", .int 10)]
    locals_snapshot := [("x", .int 10)] }

/-- A recorded `function_entry` event for a function named `add`, as
`visit_FunctionDef` instrumentation produces it. -/
def entryEvent_add : TraceEvent :=
  { event_id := 1, filename := "<string>", lineno := 2
    event_type := .function_entry
    data := [("func_name", .str "add"), ("args", .list [.int 5, .int 3])] }

/-- A recorded `branch` event at line 3, used as candidate blocking
evidence in the line-not-executed scenario. -/
def branchEvent_line3 : TraceEvent :=
  { event_id := 2, filename := "<string>", lineno := 3, event_type := .branch
    data := [("condition", .str "x > 5"), ("result", .bool true),
             ("decision", .str "if_block")] }

/-- An unparsable source file: `ast.parse` fails on its text, so `parsed`
is `none`. -/
def badFile : PyFile :=
  { text := "def f(:", parsed := none }

/-- A log the recorder can produce whose payload holds an unpicklable
value: the event recorded for the instrumented assignment `lk = ...` in a
frame where `lk` is bound to a lock-like object (e.g. `threading.Lock()`).
`record_event` copies the raw lock into the `data` payload (payloads are
never sanitized; only the snapshots are), while the locals snapshot keeps
the placeholder string. -/
def lockEvent : TraceEvent :=
  record_event
    ⟨1, "<string>", 1, .assign,
      [("var_name", Expr.const (.str "lk")), ("value", Expr.name "lk")]⟩
    [("lk", Value.lock)]

end Pywhy

namespace Pywhy

/-! ## Theorems -/

/-- Membership in a sanitized snapshot comes from a binding of the input
dict whose key survived the `_whyline_` drop, with the value either kept
(picklable) or replaced by the unpicklable placeholder string. -/
theorem sanitize_dict_mem {d : List (String × Value)} {k : String} {v : Value}
    (h : (k, v) ∈ sanitize_dict d) :
    ∃ v0, (k, v0) ∈ d ∧ pyStartsWith k "_whyline_" = false ∧
      (v = v0 ∨ v = .str ("<unpicklable: " ++ typeNameV v0 ++ ">")) := by
  induction d with
  | nil => simp [sanitize_dict] at h
  | cons kv rest ih =>
    obtain ⟨k0, v0⟩ := kv
    by_cases hw : pyStartsWith k0 "_whyline_"
    · rw [sanitize_dict, if_pos hw] at h
      obtain ⟨w, hm, hk, hv⟩ := ih h
      exact ⟨w, List.mem_cons_of_mem _ hm, hk, hv⟩
    · by_cases hp : picklableV v0
      · rw [sanitize_dict, if_neg hw, if_pos hp] at h
        rcases List.mem_cons.mp h with heq | hm
        · have hk : k = k0 := congrArg Prod.fst heq
          have hv : v = v0 := congrArg Prod.snd heq
          refine ⟨v0, ?_, ?_, Or.inl hv⟩
          · rw [hk]; exact List.mem_cons_self _ _
          · rw [hk]; simpa using hw
        · obtain ⟨w, hm2, hk, hv⟩ := ih hm
          exact ⟨w, List.mem_cons_of_mem _ hm2, hk, hv⟩
      · rw [sanitize_dict, if_neg hw, if_neg hp] at h
        rcases List.mem_cons.mp h with heq | hm
        · have hk : k = k0 := congrArg Prod.fst heq
          have hv : v = Value.str ("<unpicklable: " ++ typeNameV v0 ++ ">") :=
            congrArg Prod.snd heq
          refine ⟨v0, ?_, ?_, Or.inr hv⟩
          · rw [hk]; exact List.mem_cons_self _ _
          · rw [hk]; simpa using hw
        · obtain ⟨w, hm2, hk, hv⟩ := ih hm
          exact ⟨w, List.mem_cons_of_mem _ hm2, hk, hv⟩

/-- C10: every binding of the globals snapshot attached by `record_event`
has a name that does not begin with a double underscore and a value that is
not callable, and it originates from a module-level binding that was
already non-callable at capture time (so module-level functions, classes
and imported callables never appear); this is on top of the `_whyline_`
name drop and the unpicklable-value placeholder substitution performed by
the sanitizer. -/
theorem claim_C10_globals_snapshot_clean
    (g : List (String × Value)) (k : String) (v : Value)
    (h : (k, v) ∈ sanitize_dict (globals_filter g)) :
    pyStartsWith k "__" = false ∧ callableV v = false ∧
      pyStartsWith k "_whyline_" = false ∧
      ∃ v0, (k, v0) ∈ g ∧ callableV v0 = false := by
  obtain ⟨v0, hmem, hwk, hval⟩ := sanitize_dict_mem h
  rw [globals_filter, List.mem_filter] at hmem
  obtain ⟨hg, hflt⟩ := hmem
  simp only [Bool.and_eq_true, Bool.not_eq_true'] at hflt
  refine ⟨hflt.1, ?_, hwk, v0, hg, hflt.2⟩
  rcases hval with rfl | rfl
  · exact hflt.2
  · rfl

/-- C10 witness: a concrete module-global dict holding a dunder binding, a
module-level function, a plain int and an unpicklable lock; the snapshot
keeps the int binding, and the theorem applies to it. -/
theorem claim_C10_witness :
    ("x", Value.int 3) ∈ sanitize_dict (globals_filter
      [("__name__", Value.str "__main__"), ("f", Value.fn "f"),
       ("x", Value.int 3), ("lk", Value.lock)]) ∧
    pyStartsWith "x" "__" = false ∧ callableV (Value.int 3) = false := by
  have hm : sanitize_dict (globals_filter
      [("__name__", Value.str "__main__"), ("f", Value.fn "f"),
       ("x", Value.int 3), ("lk", Value.lock)]) =
      [("x", Value.int 3), ("lk", Value.str "<unpicklable: lock>")] := rfl
  have hmem : ("x", Value.int 3) ∈ sanitize_dict (globals_filter
      [("__name__", Value.str "__main__"), ("f", Value.fn "f"),
       ("x", Value.int 3), ("lk", Value.lock)]) := hm ▸ List.mem_cons_self ..
  have := claim_C10_globals_snapshot_clean _ _ _ hmem
  exact ⟨hmem, this.1, this.2.1⟩

/-- C7: instrumenting and running `x = 10; y = 20; z = x + y` records
exactly three `assign` events, in order, for x with value 10, y with value
20 and z with value 30, where the x and y events carry no dependency set
(no names are read by their right-hand sides) and the z event's dependency
set is exactly the names read on its right-hand side, x and y. -/
theorem claim_C7_three_assign_events :
    (runInstrumented "<string>" prog_xyz 50).map
        (fun e => (e.event_type.value, lookupD e.data "var_name",
          lookupD e.data "value", lookupD e.data "deps")) =
      [("assign", some (.str "x"), some (.int 10), none),
       ("assign", some (.str "y"), some (.int 20), none),
       ("assign", some (.str "z"), some (.int 30),
        some (.list [.str "x", .str "y"]))] := rfl

/-- C1: the claim fails on the code.  Ids are allocated per instrumentation
point at instrumentation time (`WhylineInstrumenter.create_tracer_call`
bakes `self.event_id` into the generated call as a constant;
`WhylineTracer.get_next_event_id` is never called by instrumented code), so
running the two-iteration loop records the id sequence [2, 1, 2, 1]:
event ids in log order are neither strictly increasing nor duplicate-free.
-/
theorem claim_C1_ids_not_unique :
    (runInstrumented "<string>" prog_loop 50).map TraceEvent.event_id = [2, 1, 2, 1]
    ∧ ¬ ((runInstrumented "<string>" prog_loop 50).map TraceEvent.event_id).Nodup
    ∧ ¬ List.Pairwise (· < ·)
        ((runInstrumented "<string>" prog_loop 50).map TraceEvent.event_id) :=
  ⟨rfl, by decide, by decide⟩

/-- C9: `get_answer` on a fresh question computes the answer, caches it
(the ghost analysis counter becomes 1), and a second call returns the
identical cached answer with the question state unchanged — the analysis is
not re-run. -/
theorem claim_C9_answer_memoized {α : Type} (a : α) :
    (MemoQuestion.get_answer a ⟨none, 0⟩).1 = a
    ∧ (MemoQuestion.get_answer a ⟨none, 0⟩).2.answer = some a
    ∧ (MemoQuestion.get_answer a ⟨none, 0⟩).2.analyzeCalls = 1
    ∧ MemoQuestion.get_answer a (MemoQuestion.get_answer a ⟨none, 0⟩).2 =
        (a, (MemoQuestion.get_answer a ⟨none, 0⟩).2) :=
  ⟨rfl, rfl, rfl, rfl⟩

/-- C9 witness: the memoization chain evaluated at a concrete answer
value. -/
theorem claim_C9_witness :
    (MemoQuestion.get_answer (42 : Nat) ⟨none, 0⟩).1 = 42
    ∧ (MemoQuestion.get_answer (42 : Nat) ⟨none, 0⟩).2.answer = some 42
    ∧ (MemoQuestion.get_answer (42 : Nat) ⟨none, 0⟩).2.analyzeCalls = 1
    ∧ MemoQuestion.get_answer 42 (MemoQuestion.get_answer (42 : Nat) ⟨none, 0⟩).2 =
        (42, (MemoQuestion.get_answer (42 : Nat) ⟨none, 0⟩).2) :=
  claim_C9_answer_memoized 42

/-- C3: the claim fails on the code.  On a trace containing an `assign`
event the analysis raises `AttributeError` as soon as it reads `event.args`
(`TraceEvent` has no such attribute — the payload field is `data`), and
even on the empty trace the answer construction raises `TypeError` because
`Answer` is not a dataclass, so `ValueSourceAnswer.__init__` rejects the
`question`/`explanation`/`evidence` keywords.  The analysis never returns
the described most-recent-match answer. -/
theorem claim_C3_analyze_raises :
    WhyDidVariableHaveValue.analyze "x" (.int 10) none none [assignEvent_x10] =
      .error (.attributeError "TraceEvent object has no attribute args")
    ∧ WhyDidVariableHaveValue.analyze "x" (.int 10) none none [] =
      .error (.typeError "__init__ got an unexpected keyword argument question") :=
  ⟨rfl, rfl⟩

/-- C4: the claim fails on the code.  The scan looks for events of kind
`call_pre`, a string that no `EventType` member carries (function entries
are recorded as `function_entry`), so even on a trace holding a
`function_entry` event for the queried name the scan finds nothing, and the
never-called answer construction then raises `TypeError` (non-dataclass
`Answer` base).  The analysis never reports the call count. -/
theorem claim_C4_function_called_broken :
    (∀ et : EventType, (et.value == "call_pre") = false)
    ∧ wfcScan "add" [] [entryEvent_add] = .ok []
    ∧ [entryEvent_add].map (fun e => (e.event_type.value, lookupD e.data "func_name")) =
        [("function_entry", some (.str "add"))]
    ∧ WhyWasFunctionCalled.analyze "add" [entryEvent_add] =
        .error (.typeError "__init__ got an unexpected keyword argument question") :=
  ⟨by decide, rfl, rfl, rfl⟩

/-- C5 counterexample: for a source file that fails to parse,
`instrument_code` raises, yet `instrument_file` surfaces nothing to the
caller — it returns the original, uninstrumented source text as a normal
result.  This falsifies the claim that the core entry points surface
instrumentation failures rather than silently returning the original
program. -/
theorem claim_C5_counterexample :
    instrument_code badFile = .error (.syntaxError "Syntax error in source code")
    ∧ instrument_file badFile = .ok badFile.text :=
  ⟨rfl, rfl⟩

/-- C5 amended: when instrumentation fails, the core entry points
themselves fall back — `instrument_file` catches the error, prints a
message, and returns the original source text as a normal result, and
`exec_instrumented` catches the error, prints a message, and executes the
original, uninstrumented code (for a parse failure, that fallback execution
then fails on its own).  The fallback is built into the core, not left to
the caller. -/
theorem claim_C5_core_falls_back (f : PyFile) (e : InstrumentError)
    (h : instrument_code f = .error e) :
    instrument_file f = .ok f.text
    ∧ exec_instrumented f 100 =
        .error (.syntaxError "fallback exec: original source does not parse") := by
  constructor
  · rw [instrument_file, h]
  · have hp : f.parsed = none := by
      cases hpp : f.parsed with
      | none => rfl
      | some p => rw [instrument_code, hpp] at h; cases h
    rw [exec_instrumented, hp]

/-- C5 witness: the fallback theorem applied to the concrete unparsable
file. -/
theorem claim_C5_witness :
    instrument_code badFile = .error (.syntaxError "Syntax error in source code")
    ∧ instrument_file badFile = .ok badFile.text
    ∧ exec_instrumented badFile 100 =
        .error (.syntaxError "fallback exec: original source does not parse") := by
  have := claim_C5_core_falls_back badFile _ rfl
  exact ⟨rfl, this.1, this.2⟩

/-- C2: asking why a line with no recorded events did not execute returns
an execution answer stating zero executions, whose evidence (and dependency
list) is exactly the `branch` events at smaller line numbers in the same
file.  The analysis class is modelled from the spec because
`WhyDidntLineExecute` is absent from `src/pywhy/questions.py` (only its
callers exist under `src/`). -/
theorem claim_C2_line999_zero_executions (events : List TraceEvent) (f : String)
    (h : events.filter (fun e => e.filename == f && e.lineno == 999) = []) :
    (WhyDidntLineExecute.analyze f 999 events).execution_events = []
    ∧ (WhyDidntLineExecute.analyze f 999 events).dependencies =
        events.filter (fun e => e.event_type == EventType.branch
          && e.filename == f && decide (e.lineno < 999))
    ∧ (WhyDidntLineExecute.analyze f 999 events).evidence =
        events.filter (fun e => e.event_type == EventType.branch
          && e.filename == f && decide (e.lineno < 999))
    ∧ (WhyDidntLineExecute.analyze f 999 events).explanation =
        "Line 999 was executed 0 times; it never executed" := by
  simp [WhyDidntLineExecute.analyze, h]
  rfl

/-- C2 witness: a concrete trace with a branch event at line 3 and an
assign event at line 1 of the same file, and no event at line 999: the
answer reports zero executions with the branch event as sole evidence. -/
theorem claim_C2_witness :
    [branchEvent_line3, assignEvent_x10].filter
        (fun e => e.filename == "<string>" && e.lineno == 999) = []
    ∧ ((WhyDidntLineExecute.analyze "<string>" 999
          [branchEvent_line3, assignEvent_x10]).execution_events = []
      ∧ (WhyDidntLineExecute.analyze "<string>" 999
          [branchEvent_line3, assignEvent_x10]).dependencies =
          [branchEvent_line3, assignEvent_x10].filter
            (fun e => e.event_type == EventType.branch
              && e.filename == "<string>" && decide (e.lineno < 999))
      ∧ (WhyDidntLineExecute.analyze "<string>" 999
          [branchEvent_line3, assignEvent_x10]).evidence =
          [branchEvent_line3, assignEvent_x10].filter
            (fun e => e.event_type == EventType.branch
              && e.filename == "<string>" && decide (e.lineno < 999))
      ∧ (WhyDidntLineExecute.analyze "<string>" 999
          [branchEvent_line3, assignEvent_x10]).explanation =
          "Line 999 was executed 0 times; it never executed") :=
  ⟨rfl, claim_C2_line999_zero_executions [branchEvent_line3, assignEvent_x10]
    "<string>" rfl⟩

/-! ### Round-trip persistence (C8) -/

/-- Every value has positive decoder-fuel size. -/
theorem sizeV_pos (v : Value) : 1 ≤ sizeV v := by
  cases v <;> simp [sizeV]

/-- Every value list has positive decoder-fuel size. -/
theorem sizeVs_pos (vs : List Value) : 1 ≤ sizeVs vs := by
  cases vs
  all_goals simp [sizeVs]
  omega

/-- Every dictionary has positive decoder-fuel size. -/
theorem sizeD_pos (d : List (String × Value)) : 1 ≤ sizeD d := by
  cases d
  all_goals simp [sizeD]
  omega

/-- Joint decoder correctness for values and value lists: when encoding
succeeds, decoding with enough fuel consumes exactly the emitted tokens and
returns the value. -/
theorem dec_enc_value (fuel : Nat) :
    (∀ (v : Value) (ts : List Tok), encV v = .ok ts → sizeV v ≤ fuel →
      ∀ (rest : List Tok), decV fuel (ts ++ rest) = some (v, rest)) ∧
    (∀ (vs : List Value) (ts : List Tok), encVs vs = .ok ts → sizeVs vs ≤ fuel →
      ∀ (rest : List Tok), decVs fuel vs.length (ts ++ rest) = some (vs, rest)) := by
  induction fuel with
  | zero =>
    constructor
    · intro v ts _ h; have := sizeV_pos v; omega
    · intro vs ts _ h; have := sizeVs_pos vs; omega
  | succ fuel ih =>
    obtain ⟨ih1, ih2⟩ := ih
    constructor
    · intro v ts henc h rest
      cases v with
      | int i => simp only [encV, Except.ok.injEq] at henc; subst henc; simp [decV]
      | bool b => simp only [encV, Except.ok.injEq] at henc; subst henc; simp [decV]
      | str s => simp only [encV, Except.ok.injEq] at henc; subst henc; simp [decV]
      | noneV => simp only [encV, Except.ok.injEq] at henc; subst henc; simp [decV]
      | fn s => simp only [encV, Except.ok.injEq] at henc; subst henc; simp [decV]
      | cls s => simp only [encV, Except.ok.injEq] at henc; subst henc; simp [decV]
      | lock => simp [encV] at henc
      | list es =>
        have hs : sizeVs es ≤ fuel := by simp [sizeV] at h; omega
        cases hes : encVs es with
        | error err => rw [encV, hes] at henc; cases henc
        | ok ts2 =>
          rw [encV, hes] at henc
          simp only [Except.ok.injEq] at henc
          subst henc
          simp only [List.cons_append, decV]
          simp [ih2 es ts2 hes hs rest]
    · intro vs ts henc h rest
      cases vs with
      | nil =>
        simp only [encVs, Except.ok.injEq] at henc
        subst henc
        simp [decVs]
      | cons v tl =>
        have h1 : sizeV v ≤ fuel := by simp [sizeVs] at h; omega
        have h2 : sizeVs tl ≤ fuel := by simp [sizeVs] at h; omega
        cases hv : encV v with
        | error err => rw [encVs, hv] at henc; cases henc
        | ok a =>
          cases htl : encVs tl with
          | error err => rw [encVs, hv, htl] at henc; cases henc
          | ok b =>
            rw [encVs, hv, htl] at henc
            simp only [Except.ok.injEq] at henc
            subst henc
            simp only [List.length_cons, List.append_assoc, decVs]
            simp [ih1 v a hv h1 (b ++ rest), ih2 tl b htl h2 rest]

/-- Decoder correctness for dictionaries' entry lists, when encoding
succeeds. -/
theorem dec_enc_pairs (d : List (String × Value)) :
    ∀ (fuel : Nat) (ts : List Tok), encPairs d = .ok ts → sizeD d ≤ fuel →
      ∀ (rest : List Tok), decPairs fuel d.length (ts ++ rest) = some (d, rest) := by
  induction d with
  | nil =>
    intro fuel ts henc h rest
    simp only [encPairs, Except.ok.injEq] at henc
    subst henc
    cases fuel with
    | zero => simp [sizeD] at h
    | succ fuel => simp [decPairs]
  | cons kv tl ih =>
    intro fuel ts henc h rest
    obtain ⟨k, v⟩ := kv
    cases fuel with
    | zero => have := sizeD_pos ((k, v) :: tl); omega
    | succ fuel =>
      have h1 : sizeV v ≤ fuel := by simp [sizeD] at h; have := sizeD_pos tl; omega
      have h2 : sizeD tl ≤ fuel := by simp [sizeD] at h; have := sizeV_pos v; omega
      cases hv : encV v with
      | error err => simp [encPairs, encPair, hv] at henc
      | ok a =>
        cases htl : encPairs tl with
        | error err => simp [encPairs, encPair, hv, htl] at henc
        | ok b =>
          simp only [encPairs, encPair, hv, htl, Except.ok.injEq] at henc
          subst henc
          simp only [List.length_cons, List.cons_append, List.append_assoc, decPairs]
          simp [(dec_enc_value fuel).1 v a hv h1 (b ++ rest), ih fuel b htl h2 rest]

/-- Decoder correctness for whole dictionaries, when encoding succeeds. -/
theorem dec_enc_dict (d : List (String × Value)) (fuel : Nat) (ts rest : List Tok)
    (henc : encD d = .ok ts) (h : sizeD d ≤ fuel) :
    decD fuel (ts ++ rest) = some (d, rest) := by
  cases hp : encPairs d with
  | error err => rw [encD, hp] at henc; cases henc
  | ok ts2 =>
    rw [encD, hp] at henc
    simp only [Except.ok.injEq] at henc
    subst henc
    simp only [List.cons_append, decD]
    exact dec_enc_pairs d fuel ts2 hp h rest

/-- Decoder correctness for one trace event, when encoding succeeds. -/
theorem dec_enc_event (e : TraceEvent) (fuel : Nat) (ts rest : List Tok)
    (henc : encE e = .ok ts) (h : sizeE e ≤ fuel) :
    decE fuel (ts ++ rest) = some (e, rest) := by
  have h1 : sizeD e.data ≤ fuel := by simp [sizeE] at h; omega
  have h2 : sizeD e.locals_snapshot ≤ fuel := by
    simp [sizeE] at h
    have := sizeD_pos e.data; have := sizeD_pos e.globals_snapshot; omega
  have h3 : sizeD e.globals_snapshot ≤ fuel := by
    simp [sizeE] at h
    have := sizeD_pos e.data; have := sizeD_pos e.locals_snapshot; omega
  cases hd1 : encD e.data with
  | error err => rw [encE, hd1] at henc; cases henc
  | ok d1 =>
    cases hd2 : encD e.locals_snapshot with
    | error err => rw [encE, hd1, hd2] at henc; cases henc
    | ok d2 =>
      cases hd3 : encD e.globals_snapshot with
      | error err => rw [encE, hd1, hd2, hd3] at henc; cases henc
      | ok d3 =>
        rw [encE, hd1, hd2, hd3] at henc
        simp only [Except.ok.injEq] at henc
        subst henc
        simp only [List.cons_append, List.append_assoc, List.nil_append, decE]
        rw [dec_enc_dict e.data fuel d1
          (Tok.tNat e.timestamp :: Tok.tNat e.thread_id :: (d2 ++ (d3 ++ rest)))
          hd1 h1]
        simp [dec_enc_dict e.locals_snapshot fuel d2 (d3 ++ rest) hd2 h2,
          dec_enc_dict e.globals_snapshot fuel d3 rest hd3 h3]

/-- Decoder correctness for event lists, when encoding succeeds. -/
theorem dec_enc_events (evs : List TraceEvent) :
    ∀ (fuel : Nat) (ts : List Tok), encEvents evs = .ok ts →
      (∀ e ∈ evs, sizeE e ≤ fuel) →
      ∀ (rest : List Tok), decEvents fuel evs.length (ts ++ rest) = some (evs, rest) := by
  induction evs with
  | nil =>
    intro fuel ts henc _ rest
    simp only [encEvents, Except.ok.injEq] at henc
    subst henc
    simp [decEvents]
  | cons e tl ih =>
    intro fuel ts henc h rest
    cases he : encE e with
    | error err => rw [encEvents, he] at henc; cases henc
    | ok a =>
      cases htl : encEvents tl with
      | error err => rw [encEvents, he, htl] at henc; cases henc
      | ok b =>
        rw [encEvents, he, htl] at henc
        simp only [Except.ok.injEq] at henc
        subst henc
        simp only [List.length_cons, List.append_assoc, decEvents]
        rw [dec_enc_event e fuel a (b ++ rest) he (h e (List.mem_cons_self ..))]
        simp [ih fuel b htl (fun x hx => h x (List.mem_cons_of_mem _ hx)) rest]

/-- C8 counterexample: a log the recorder can produce — one `assign` event
whose payload value is a lock-like object, recorded by `record_event` for
the instrumented `lk = ...` assignment — cannot be serialized at all:
`save_trace` raises `TypeError` (as `pickle.dump` does on a lock), so no
persistent form exists to deserialize, falsifying the round-trip for every
recorder-producible log.  The event's snapshots ARE sanitized (the lock
became a placeholder string), but its payload is not. -/
theorem claim_C8_counterexample :
    lockEvent.data = [("var_name", .str "lk"), ("value", .lock)]
    ∧ lockEvent.locals_snapshot = [("lk", .str "<unpicklable: lock>")]
    ∧ save_trace [lockEvent] =
        .error (.typeError "cannot pickle _thread.lock object") :=
  ⟨rfl, rfl, rfl⟩

/-- C8 amended: whenever serializing a recorded event log succeeds (its
payload values are all picklable — `pickle.dump` does not raise),
deserializing the resulting blob restores an event list equal to the
original in order, kind, payload and id (indeed in every field); logs with
an unpicklable payload value cannot be serialized at all.
`save_trace`/`load_trace` persist via `pickle`; the opaque blob is modelled
as a token stream. -/
theorem claim_C8_round_trip (events : List TraceEvent) (blob : List Tok)
    (h : save_trace events = .ok blob) :
    load_trace blob = some events := by
  cases henc : encEvents events with
  | error err => rw [save_trace, henc] at h; cases h
  | ok ts =>
    rw [save_trace, henc] at h
    simp only [Except.ok.injEq] at h
    subst h
    have hfuel : ∀ e ∈ events, sizeE e ≤ traceFuel events := by
      intro e he
      have : sizeE e ≤ (events.map sizeE).sum :=
        List.single_le_sum (fun x _ => Nat.zero_le x) _ (List.mem_map_of_mem _ he)
      simp [traceFuel]; omega
    have hdec := dec_enc_events events (traceFuel events) ts henc hfuel []
    rw [List.append_nil] at hdec
    simp only [load_trace]
    rw [hdec]

/-- C8 witness: the amended round-trip evaluated at a concrete two-event
log whose serialization succeeds. -/
theorem claim_C8_witness :
    save_trace [assignEvent_x10, branchEvent_line3] =
      .ok ((save_trace [assignEvent_x10, branchEvent_line3]).toOption.getD [])
    ∧ load_trace ((save_trace [assignEvent_x10, branchEvent_line3]).toOption.getD []) =
        some [assignEvent_x10, branchEvent_line3] :=
  ⟨rfl, claim_C8_round_trip [assignEvent_x10, branchEvent_line3] _ rfl⟩

/-! ### Branch exclusivity (C6) -/

/-- Recorder-call ids distribute over statement-list concatenation. -/
theorem tracerIdsL_append (a b : List Stmt) :
    tracerIdsL (a ++ b) = tracerIdsL a ++ tracerIdsL b := by
  induction a with
  | nil => simp [tracerIdsL]
  | cons s rest ih => simp [tracerIdsL, ih]

/-- Every embedded statement has positive size. -/
theorem stmt_sizeOf_pos (s : Stmt) : 0 < sizeOf s := by
  cases s <;> simp_arith

/-- The instrumenter's counter is monotone and every recorder-call id it
plants in the output of a source statement stays at or below the final
counter value (joint statement over statements and statement lists, by
induction on a size bound). -/
theorem instr_ids_le (fname : String) : ∀ (n : Nat),
    (∀ (s : Stmt), sizeOf s ≤ n → NoTracer s = true →
      ∀ (c : Nat) (out : List Stmt) (c2 : Nat), instrStmt fname s c = (out, c2) →
      c ≤ c2 ∧ ∀ i ∈ tracerIdsL out, i ≤ c2) ∧
    (∀ (l : List Stmt), sizeOf l ≤ n → NoTracerL l = true →
      ∀ (c : Nat) (out : List Stmt) (c2 : Nat), instrStmts fname l c = (out, c2) →
      c ≤ c2 ∧ ∀ i ∈ tracerIdsL out, i ≤ c2) := by
  intro n
  induction n with
  | zero =>
    constructor
    · intro s hs
      exact absurd hs (by have := stmt_sizeOf_pos s; omega)
    · intro l hl
      exact absurd hl (by cases l <;> simp_arith)
  | succ n ih =>
    obtain ⟨ih1, ih2⟩ := ih
    constructor
    · intro s hs hnt c out c2 hio
      cases s with
      | assign x e =>
        simp only [instrStmt, create_tracer_call] at hio
        injection hio with hout hc2
        subst hout; subst hc2
        refine ⟨by omega, ?_⟩
        intro i hi
        simp [tracerIdsL, tracerIds] at hi
        omega
      | augAssign x op e =>
        simp only [instrStmt, create_tracer_call] at hio
        injection hio with hout hc2
        subst hout; subst hc2
        refine ⟨by omega, ?_⟩
        intro i hi
        simp [tracerIdsL, tracerIds] at hi
        omega
      | exprTracer tc => simp [NoTracer] at hnt
      | whileS t b =>
        have hsb : sizeOf b ≤ n := by simp at hs; omega
        have hnb : NoTracerL b = true := by simpa [NoTracer] using hnt
        rcases hb : instrStmts fname b c with ⟨b1, cb⟩
        obtain ⟨hbLe, hbIds⟩ := ih2 b hsb hnb c b1 cb hb
        simp only [instrStmt, create_tracer_call, hb] at hio
        injection hio with hout hc2
        subst hout; subst hc2
        refine ⟨by omega, ?_⟩
        intro i hi
        simp only [tracerIdsL, tracerIds, List.mem_append, List.mem_cons,
          List.not_mem_nil, or_false, false_or] at hi
        rcases hi with rfl | hi
        · omega
        · have := hbIds i hi; omega
      | forS x it b =>
        have hsb : sizeOf b ≤ n := by simp at hs; omega
        have hnb : NoTracerL b = true := by simpa [NoTracer] using hnt
        rcases hb : instrStmts fname b c with ⟨b1, cb⟩
        obtain ⟨hbLe, hbIds⟩ := ih2 b hsb hnb c b1 cb hb
        simp only [instrStmt, create_tracer_call, hb] at hio
        injection hio with hout hc2
        subst hout; subst hc2
        refine ⟨by omega, ?_⟩
        intro i hi
        simp only [tracerIdsL, tracerIds, List.mem_append, List.mem_cons,
          List.not_mem_nil, or_false, false_or] at hi
        rcases hi with rfl | hi
        · omega
        · have := hbIds i hi; omega
      | ifS t b o =>
        have hsb : sizeOf b ≤ n := by simp at hs; omega
        have hso : sizeOf o ≤ n := by simp at hs; omega
        have hnb : NoTracerL b = true := by
          simp [NoTracer] at hnt; exact hnt.1
        have hno : NoTracerL o = true := by
          simp [NoTracer] at hnt; exact hnt.2
        rcases hb : instrStmts fname b c with ⟨b1, cb⟩
        rcases ho : instrStmts fname o cb with ⟨o1, co⟩
        obtain ⟨hbLe, hbIds⟩ := ih2 b hsb hnb c b1 cb hb
        obtain ⟨hoLe, hoIds⟩ := ih2 o hso hno cb o1 co ho
        cases o1 with
        | nil =>
          simp only [instrStmt, create_tracer_call, hb, ho] at hio
          injection hio with hout hc2
          subst hout; subst hc2
          refine ⟨by omega, ?_⟩
          intro i hi
          have hB := hbIds i
          simp only [tracerIdsL, tracerIds, tracerIdsL_append, List.mem_append,
            List.mem_cons, List.not_mem_nil, or_false, false_or] at hi hB
          casesm* _ ∨ _
          all_goals first
            | omega
            | (specialize hB (by assumption); omega)
        | cons s1 o1tl =>
          cases o1tl with
          | nil =>
            have hO1 : ∀ i ∈ tracerIdsL [s1], i ≤ co := hoIds
            cases s1
            all_goals
              simp only [instrStmt, create_tracer_call, hb, ho] at hio
              injection hio with hout hc2
              subst hout; subst hc2
              refine ⟨by omega, ?_⟩
              intro i hi
              have hB := hbIds i
              have hO := hO1 i
              simp only [tracerIdsL, tracerIds, tracerIdsL_append, List.mem_append,
                List.mem_cons, List.not_mem_nil, or_false, false_or] at hi hB hO
              casesm* _ ∨ _
              all_goals first
                | omega
                | (specialize hB (by assumption); omega)
                | (specialize hO (by assumption); omega)
                | (specialize hO (Or.inl (by assumption)); omega)
                | (specialize hO (Or.inr (by assumption)); omega)
                | (specialize hO (Or.inr (Or.inl (by assumption))); omega)
                | (specialize hO (Or.inr (Or.inr (by assumption))); omega)
          | cons s2 tl2 =>
            have hO1 : ∀ i ∈ tracerIdsL (s1 :: s2 :: tl2), i ≤ co := hoIds
            simp only [instrStmt, create_tracer_call, hb, ho] at hio
            injection hio with hout hc2
            subst hout; subst hc2
            refine ⟨by omega, ?_⟩
            intro i hi
            have hB := hbIds i
            have hO := hO1 i
            simp only [tracerIdsL, tracerIds, tracerIdsL_append, List.mem_append,
              List.mem_cons, List.not_mem_nil, or_false, false_or] at hi hB hO
            casesm* _ ∨ _
            all_goals first
              | omega
              | (specialize hB (by assumption); omega)
              | (specialize hO (by assumption); omega)
              | (specialize hO (Or.inl (by assumption)); omega)
              | (specialize hO (Or.inr (by assumption)); omega)
              | (specialize hO (Or.inr (Or.inl (by assumption))); omega)
              | (specialize hO (Or.inr (Or.inr (by assumption))); omega)
    · intro l hl hnt c out c2 hio
      cases l with
      | nil =>
        simp only [instrStmts] at hio
        injection hio with hout hc2
        subst hout; subst hc2
        simp [tracerIdsL]
      | cons s rest =>
        have hss : sizeOf s ≤ n := by simp at hl; omega
        have hsr : sizeOf rest ≤ n := by simp at hl; omega
        have hns : NoTracer s = true := by
          simp [NoTracerL] at hnt; exact hnt.1
        have hnr : NoTracerL rest = true := by
          simp [NoTracerL] at hnt; exact hnt.2
        rcases h1 : instrStmt fname s c with ⟨s1, c1⟩
        rcases h2 : instrStmts fname rest c1 with ⟨r1, c2x⟩
        obtain ⟨hLe1, hIds1⟩ := ih1 s hss hns c s1 c1 h1
        obtain ⟨hLe2, hIds2⟩ := ih2 rest hsr hnr c1 r1 c2x h2
        simp only [instrStmts, h1, h2] at hio
        injection hio with hout hc2
        subst hout; subst hc2
        refine ⟨by omega, ?_⟩
        intro i hi
        rw [tracerIdsL_append] at hi
        rcases List.mem_append.mp hi with hi | hi
        · have := hIds1 i hi; omega
        · exact hIds2 i hi

/-- Every event emitted by executing a statement carries the id of one of
the recorder calls embedded in that statement (joint statement for the
three mutually recursive interpreter functions, by induction on fuel). -/
theorem exec_ids : ∀ (fuel : Nat),
    (∀ (env : Env) (s : Stmt) (r : Env × List TraceEvent),
      execStmt fuel env s = some r → ∀ e ∈ r.2, e.event_id ∈ tracerIds s) ∧
    (∀ (env : Env) (x : String) (vs : List Value) (b : List Stmt)
      (r : Env × List TraceEvent),
      execFor fuel env x vs b = some r → ∀ e ∈ r.2, e.event_id ∈ tracerIdsL b) ∧
    (∀ (env : Env) (l : List Stmt) (r : Env × List TraceEvent),
      execStmts fuel env l = some r → ∀ e ∈ r.2, e.event_id ∈ tracerIdsL l) := by
  intro fuel
  induction fuel with
  | zero =>
    refine ⟨?_, ?_, ?_⟩
    · intro env s r h; simp [execStmt] at h
    · intro env x vs b r h; simp [execFor] at h
    · intro env l r h; simp [execStmts] at h
  | succ fuel ih =>
    obtain ⟨ih1, ih2, ih3⟩ := ih
    refine ⟨?_, ?_, ?_⟩
    · intro env s r h e he
      cases s with
      | assign x ex =>
        simp only [execStmt, Option.some.injEq] at h
        rw [← h] at he
        simp at he
      | augAssign x op ex =>
        simp only [execStmt, Option.some.injEq] at h
        rw [← h] at he
        simp at he
      | exprTracer tc =>
        simp only [execStmt, Option.some.injEq] at h
        rw [← h] at he
        simp at he
        simp [he, tracerIds, record_event]
      | ifS t b o =>
        simp only [execStmt] at h
        by_cases ht : truthy (evalE env t) = true
        · rw [if_pos ht] at h
          have := ih3 env b r h e he
          simp [tracerIds, tracerIdsL_append, List.mem_append]
          exact Or.inl this
        · rw [if_neg ht] at h
          have := ih3 env o r h e he
          simp [tracerIds, tracerIdsL_append, List.mem_append]
          exact Or.inr this
      | whileS t b =>
        simp only [execStmt] at h
        by_cases ht : truthy (evalE env t) = true
        · rw [if_pos ht] at h
          cases h1 : execStmts fuel env b with
          | none => rw [h1] at h; cases h
          | some r1 =>
            rw [h1] at h
            simp only [Option.some_bind] at h
            cases h2 : execStmt fuel r1.1 (.whileS t b) with
            | none => rw [h2] at h; cases h
            | some r2 =>
              rw [h2] at h
              simp only [Option.map_some, Option.map_some', Option.some.injEq] at h
              rw [← h] at he
              simp only [List.mem_append] at he
              rcases he with he | he
              · exact ih3 env b r1 h1 e he
              · exact ih1 r1.1 (.whileS t b) r2 h2 e he
        · rw [if_neg ht] at h
          simp only [Option.some.injEq] at h
          rw [← h] at he
          simp at he
      | forS x it b =>
        simp only [execStmt] at h
        cases hv : evalE env it with
        | list vs =>
          rw [hv] at h
          exact ih2 env x vs b r h e he
        | int i => rw [hv] at h; cases h
        | bool bb => rw [hv] at h; cases h
        | str s => rw [hv] at h; cases h
        | noneV => rw [hv] at h; cases h
        | fn s => rw [hv] at h; cases h
        | cls s => rw [hv] at h; cases h
        | lock => rw [hv] at h; cases h
    · intro env x vs b r h e he
      cases vs with
      | nil =>
        simp only [execFor, Option.some.injEq] at h
        rw [← h] at he
        simp at he
      | cons v vtl =>
        simp only [execFor] at h
        cases h1 : execStmts fuel (updateEnv env x v) b with
        | none => rw [h1] at h; cases h
        | some r1 =>
          rw [h1] at h
          simp only [Option.some_bind] at h
          cases h2 : execFor fuel r1.1 x vtl b with
          | none => rw [h2] at h; cases h
          | some r2 =>
            rw [h2] at h
            simp only [Option.map_some, Option.map_some', Option.some.injEq] at h
            rw [← h] at he
            simp only [List.mem_append] at he
            rcases he with he | he
            · exact ih3 (updateEnv env x v) b r1 h1 e he
            · exact ih2 r1.1 x vtl b r2 h2 e he
    · intro env l r h e he
      cases l with
      | nil =>
        simp only [execStmts, Option.some.injEq] at h
        rw [← h] at he
        simp at he
      | cons s rest =>
        simp only [execStmts] at h
        cases h1 : execStmt fuel env s with
        | none => rw [h1] at h; cases h
        | some r1 =>
          rw [h1] at h
          simp only [Option.some_bind] at h
          cases h2 : execStmts fuel r1.1 rest with
          | none => rw [h2] at h; cases h
          | some r2 =>
            rw [h2] at h
            simp only [Option.map_some, Option.map_some', Option.some.injEq] at h
            rw [← h] at he
            simp only [List.mem_append] at he
            simp only [tracerIdsL, List.mem_append]
            rcases he with he | he
            · exact Or.inl (ih1 env s r1 h1 e he)
            · exact Or.inr (ih3 r1.1 rest r2 h2 e he)

/-- With enough fuel, a singleton statement list executes by executing the
statement; the fuel shape is recovered from success. -/
theorem execStmts_singleton {fuel : Nat} {env : Env} {s : Stmt} {env2 : Env}
    {tr : List TraceEvent}
    (h : execStmts fuel env [s] = some (env2, tr)) :
    ∃ g, fuel = g + 2 ∧ execStmt (g + 1) env s = some (env2, tr) := by
  cases fuel with
  | zero => simp [execStmts] at h
  | succ f =>
    simp only [execStmts] at h
    cases h1 : execStmt f env s with
    | none => rw [h1] at h; cases h
    | some r1 =>
      rw [h1] at h
      simp only [Option.some_bind] at h
      cases f with
      | zero => simp [execStmt] at h1
      | succ g =>
        simp only [execStmts, Option.map_some, Option.map_some', Option.some.injEq,
          Prod.mk.injEq, List.append_nil] at h
        obtain ⟨h2, h3⟩ := h
        refine ⟨g, rfl, ?_⟩
        rw [← h2, ← h3]
        exact h1

/-- Executing a statement list that begins with a recorder call records that
call's event first, then executes the tail. -/
theorem exec_tracer_head {fuel : Nat} {env : Env} {tc : TracerCall}
    {rest : List Stmt} {env2 : Env} {tr : List TraceEvent}
    (h : execStmts fuel env (.exprTracer tc :: rest) = some (env2, tr)) :
    ∃ g tr2, fuel = g + 2 ∧ execStmts (g + 1) env rest = some (env2, tr2) ∧
      tr = record_event tc env :: tr2 := by
  cases fuel with
  | zero => simp [execStmts] at h
  | succ f =>
    simp only [execStmts] at h
    cases f with
    | zero => simp [execStmt] at h
    | succ g =>
      simp only [execStmt, Option.some_bind] at h
      cases h2 : execStmts (g + 1) env rest with
      | none => rw [h2] at h; cases h
      | some r2 =>
        rw [h2] at h
        simp only [Option.map_some, Option.map_some', Option.some.injEq,
          Prod.mk.injEq, List.singleton_append] at h
        obtain ⟨ha, hb⟩ := h
        refine ⟨g, r2.2, rfl, ?_, ?_⟩
        · rw [← ha]
          exact h2
        · rw [← hb]

/-- Filtering a trace whose head event has an id above the cutoff and whose
remaining events are at or below it keeps exactly the head. -/
theorem filtered_single {co : Nat} {tc : TracerCall} {env : Env}
    {tr tr2 : List TraceEvent}
    (htr : tr = record_event tc env :: tr2)
    (hid : co < tc.event_id)
    (hbound : ∀ e ∈ tr2, e.event_id ≤ co) :
    tr.filter (fun e => decide (co < e.event_id)) = [record_event tc env] := by
  subst htr
  have h2 : tr2.filter (fun e => decide (co < e.event_id)) = [] := by
    rw [List.filter_eq_nil_iff]
    intro e he
    simp only [decide_eq_true_eq]
    exact Nat.not_lt.mpr (hbound e he)
  rw [List.filter_cons]
  simp [record_event, hid, h2]

/-- The payload recorded for a branch tracer call resolves its `decision`
key to the planted decision tag. -/
theorem lookup_decision (env : Env) (t c1 : Expr) (tag : String) :
    lookupD ((add_deps_to_args t
        [("condition", c1), ("result", t), ("decision", Expr.const (.str tag))]).map
      (fun kv => (kv.1, evalE env kv.2))) "decision" = some (.str tag) := by
  rw [add_deps_to_args]
  by_cases hd : (get_read_variables t).isEmpty
  · simp [hd, lookupD, evalE]
  · simp [hd, lookupD, evalE]

/-- The event recorded by a planted branch tracer call is a `branch` event
carrying exactly the planted decision tag. -/
theorem branch_tracer_event (env : Env) (t c1 : Expr) (tag : String) (id : Nat)
    (fname : String) (ln : Nat)
    (htag : tag = "if_block" ∨ tag = "elif_block" ∨ tag = "else_block" ∨
      tag = "skip_block") :
    (record_event ⟨id, fname, ln, .branch,
        add_deps_to_args t [("condition", c1), ("result", t),
          ("decision", Expr.const (.str tag))]⟩ env).event_type =
      EventType.branch ∧
    ∃ tag2, (tag2 = "if_block" ∨ tag2 = "elif_block" ∨ tag2 = "else_block" ∨
      tag2 = "skip_block") ∧
      lookupD (record_event ⟨id, fname, ln, .branch,
          add_deps_to_args t [("condition", c1), ("result", t),
            ("decision", Expr.const (.str tag))]⟩ env).data "decision" =
        some (.str tag2) :=
  ⟨rfl, tag, htag, by
    simp only [record_event]
    exact lookup_decision env t c1 tag⟩

/-- C6: for any single evaluation of an instrumented conditional statement,
exactly one branch event belonging to that statement's own instrumentation
points is emitted — never zero, never more than one — and it carries exactly
one decision tag among if/elif/else/implicit-skip.  The statement's own
points are the ones with ids above `co`, the counter value reached after its
children were instrumented; everything recorded by the executed branch body
carries a smaller id (by `instr_ids_le` and `exec_ids`), so the count is
exact even for nested conditionals and loops inside the branches. -/
theorem claim_C6_branch_exclusivity
    (fname : String) (t : Expr) (b o : List Stmt) (c : Nat)
    (hnb : NoTracerL b = true) (hno : NoTracerL o = true)
    (b1 o1 : List Stmt) (cb co : Nat)
    (hb : instrStmts fname b c = (b1, cb))
    (ho : instrStmts fname o cb = (o1, co))
    (out : List Stmt) (c2 : Nat)
    (hi : instrStmt fname (.ifS t b o) c = (out, c2))
    (fuel : Nat) (env env2 : Env) (tr : List TraceEvent)
    (hexec : execStmts fuel env out = some (env2, tr)) :
    (tr.filter (fun e => decide (co < e.event_id))).length = 1 ∧
    ∀ e ∈ tr.filter (fun e => decide (co < e.event_id)),
      e.event_type = EventType.branch ∧
      ∃ tag, (tag = "if_block" ∨ tag = "elif_block" ∨ tag = "else_block" ∨
        tag = "skip_block") ∧
        lookupD e.data "decision" = some (.str tag) := by
  obtain ⟨hbLe, hbIds⟩ :=
    ((instr_ids_le fname (sizeOf b)).2) b le_rfl hnb c b1 cb hb
  obtain ⟨hoLe, hoIds⟩ :=
    ((instr_ids_le fname (sizeOf o)).2) o le_rfl hno cb o1 co ho
  cases o1 with
  | nil =>
    simp only [instrStmt, create_tracer_call, hb, ho] at hi
    injection hi with hout hc2
    subst hout
    obtain ⟨g, hg, hS⟩ := execStmts_singleton hexec
    simp only [execStmt] at hS
    by_cases ht : truthy (evalE env t) = true
    · rw [if_pos ht] at hS
      obtain ⟨g2, tr2, hg2, hrest, htr⟩ := exec_tracer_head hS
      have hbound : ∀ e ∈ tr2, e.event_id ≤ co := by
        intro e he
        have hmem := (exec_ids (g2 + 1)).2.2 _ _ _ hrest e he
        have := hbIds e.event_id hmem
        omega
      have hfil := filtered_single htr (Nat.lt_succ_self co) hbound
      refine ⟨by rw [hfil]; simp, ?_⟩
      intro e he
      rw [hfil] at he
      simp only [List.mem_singleton] at he
      subst he
      exact branch_tracer_event env t _ _ _ _ _ (by simp)
    · rw [if_neg ht] at hS
      obtain ⟨g2, tr2, hg2, hrest, htr⟩ := exec_tracer_head hS
      have hbound : ∀ e ∈ tr2, e.event_id ≤ co := by
        intro e he
        exact hoIds e.event_id ((exec_ids (g2 + 1)).2.2 _ _ _ hrest e he)
      have hfil := filtered_single htr (Nat.lt_succ_of_lt (Nat.lt_succ_self co)) hbound
      refine ⟨by rw [hfil]; simp, ?_⟩
      intro e he
      rw [hfil] at he
      simp only [List.mem_singleton] at he
      subst he
      exact branch_tracer_event env t _ _ _ _ _ (by simp)
  | cons s1 o1tl =>
    cases o1tl with
    | nil =>
      cases s1
      all_goals
        simp only [instrStmt, create_tracer_call, hb, ho] at hi
        injection hi with hout hc2
        subst hout
        obtain ⟨g, hg, hS⟩ := execStmts_singleton hexec
        simp only [execStmt] at hS
        by_cases ht : truthy (evalE env t) = true
        · rw [if_pos ht] at hS
          obtain ⟨g2, tr2, hg2, hrest, htr⟩ := exec_tracer_head hS
          have hbound : ∀ e ∈ tr2, e.event_id ≤ co := by
            intro e he
            have hmem := (exec_ids (g2 + 1)).2.2 _ _ _ hrest e he
            have := hbIds e.event_id hmem
            omega
          have hfil := filtered_single htr (Nat.lt_succ_self co) hbound
          refine ⟨by rw [hfil]; simp, ?_⟩
          intro e he
          rw [hfil] at he
          simp only [List.mem_singleton] at he
          subst he
          exact branch_tracer_event env t _ _ _ _ _ (by simp)
        · rw [if_neg ht] at hS
          obtain ⟨g2, tr2, hg2, hrest, htr⟩ := exec_tracer_head hS
          have hbound : ∀ e ∈ tr2, e.event_id ≤ co := by
            intro e he
            exact hoIds e.event_id ((exec_ids (g2 + 1)).2.2 _ _ _ hrest e he)
          have hfil := filtered_single htr (Nat.lt_succ_of_lt (Nat.lt_succ_self co)) hbound
          refine ⟨by rw [hfil]; simp, ?_⟩
          intro e he
          rw [hfil] at he
          simp only [List.mem_singleton] at he
          subst he
          exact branch_tracer_event env t _ _ _ _ _ (by simp)
    | cons s2 tl2 =>
      simp only [instrStmt, create_tracer_call, hb, ho] at hi
      injection hi with hout hc2
      subst hout
      obtain ⟨g, hg, hS⟩ := execStmts_singleton hexec
      simp only [execStmt] at hS
      by_cases ht : truthy (evalE env t) = true
      · rw [if_pos ht] at hS
        obtain ⟨g2, tr2, hg2, hrest, htr⟩ := exec_tracer_head hS
        have hbound : ∀ e ∈ tr2, e.event_id ≤ co := by
          intro e he
          have hmem := (exec_ids (g2 + 1)).2.2 _ _ _ hrest e he
          have := hbIds e.event_id hmem
          omega
        have hfil := filtered_single htr (Nat.lt_succ_self co) hbound
        refine ⟨by rw [hfil]; simp, ?_⟩
        intro e he
        rw [hfil] at he
        simp only [List.mem_singleton] at he
        subst he
        exact branch_tracer_event env t _ _ _ _ _ (by simp)
      · rw [if_neg ht] at hS
        obtain ⟨g2, tr2, hg2, hrest, htr⟩ := exec_tracer_head hS
        have hbound : ∀ e ∈ tr2, e.event_id ≤ co := by
          intro e he
          exact hoIds e.event_id ((exec_ids (g2 + 1)).2.2 _ _ _ hrest e he)
        have hfil := filtered_single htr (Nat.lt_succ_of_lt (Nat.lt_succ_self co)) hbound
        refine ⟨by rw [hfil]; simp, ?_⟩
        intro e he
        rw [hfil] at he
        simp only [List.mem_singleton] at he
        subst he
        exact branch_tracer_event env t _ _ _ _ _ (by simp)

/-- C6 witness: the branch-exclusivity theorem applied to the concrete
instrumented conditional `if x > 5: r = 1` run with `x = 10`: exactly one
branch event above the children's counter is recorded, tagged `if_block`. -/
theorem claim_C6_witness :
    (((execStmts 10 [("x", Value.int 10)]
        (instrStmt "<f>" (Stmt.ifS (Expr.bin .gt (.name "x") (.const (.int 5)))
          [Stmt.assign "r" (Expr.const (.int 1))] []) 0).1).getD ([], [])).2.filter
      (fun e => decide (1 < e.event_id))).length = 1 ∧
    ∀ e ∈ (((execStmts 10 [("x", Value.int 10)]
        (instrStmt "<f>" (Stmt.ifS (Expr.bin .gt (.name "x") (.const (.int 5)))
          [Stmt.assign "r" (Expr.const (.int 1))] []) 0).1).getD ([], [])).2.filter
      (fun e => decide (1 < e.event_id))),
      e.event_type = EventType.branch ∧
      ∃ tag, (tag = "if_block" ∨ tag = "elif_block" ∨ tag = "else_block" ∨
        tag = "skip_block") ∧
        lookupD e.data "decision" = some (.str tag) :=
  claim_C6_branch_exclusivity "<f>" (Expr.bin .gt (.name "x") (.const (.int 5)))
    [Stmt.assign "r" (Expr.const (.int 1))] [] 0 rfl rfl _ _ 1 1 rfl rfl _ _ rfl
    10 [("x", Value.int 10)] _ _ rfl

end Pywhy

